import Mathlib

/-!
Shallow embedding of the balloon/hazard tracker core:
`safeNumber`, `extractBalloonPositions`, `extractAllBalloonPositions`
(src/utils/balloonData.ts), and `getAlertStyle`, `sortedAlerts`,
`MapController` (src/components/BalloonMap.tsx).

JavaScript numbers are modelled as exact rationals plus the special
values NaN and ±Infinity.  Decimal string parsing is exact (binary
floating-point rounding of in-range literals is abstracted away; the
claims under study only exercise values where rounding is the identity,
and the Infinity literal, which is represented exactly).
-/

/-- A JavaScript number: a finite value (modelled exactly as a rational),
positive or negative infinity, or NaN. -/
inductive JNum where
  | finite (q : ℚ)
  | posInf
  | negInf
  | nan
deriving DecidableEq, Repr

/-- `true` exactly on finite numbers (JS global `isFinite` on a number). -/
def JNum.isFiniteNum : JNum → Bool
  | .finite _ => true
  | _ => false

/-- `true` exactly on NaN (JS `isNaN` on a number). -/
def JNum.isNaNb : JNum → Bool
  | .nan => true
  | _ => false

/-- A JavaScript/JSON value as consumed by the extraction utilities. -/
inductive JSValue where
  | null
  | undefined
  | bool (b : Bool)
  | num (n : JNum)
  | str (s : String)
  | arr (xs : List JSValue)
  | obj (fields : List (String × JSValue))

/-- JS truthiness: `false`, `0`, `NaN`, `""`, `null`, `undefined` are falsy;
every object and array is truthy. -/
def jsTruthy : JSValue → Bool
  | .null => false
  | .undefined => false
  | .bool b => b
  | .num (.finite q) => q ≠ 0
  | .num .nan => false
  | .num _ => true
  | .str s => s ≠ ""
  | .arr _ => true
  | .obj _ => true

def isDigitCh (c : Char) : Bool := '0' ≤ c && c ≤ '9'

def isSpaceCh (c : Char) : Bool := c = ' ' || c = '\t' || c = '\n' || c = '\r'

def digitsToNat (ds : List Char) : Nat :=
  ds.foldl (fun n c => 10 * n + (c.toNat - '0'.toNat)) 0

/-- JS `parseFloat`: skip leading whitespace, read an optional sign, then
the longest valid decimal-literal head of the string (`digits`, `digits.digits`,
`.digits`, optionally followed by an exponent part with digits) or the literal
`Infinity`; trailing garbage is ignored.  If no numeric head exists the result
is NaN.  The numeric value `±(int.frac)·10^exp` is assembled as a single
integer fraction so that it is exact and kernel-computable. -/
def parseFloat (s : String) : JNum :=
  let cs := s.toList.dropWhile isSpaceCh
  let signed : Bool := match cs with
    | '-' :: _ => true
    | _ => false
  let cs := match cs with
    | '+' :: rest => rest
    | '-' :: rest => rest
    | _ => cs
  if cs.take 8 = "Infinity".toList then
    if signed then JNum.negInf else JNum.posInf
  else
    let intDs := cs.takeWhile isDigitCh
    let cs1 := cs.dropWhile isDigitCh
    let fracDs := match cs1 with
      | '.' :: rest => rest.takeWhile isDigitCh
      | _ => []
    let cs2 := match cs1 with
      | '.' :: rest => rest.dropWhile isDigitCh
      | _ => cs1
    if intDs = [] && fracDs = [] then JNum.nan
    else
      let mant : Int := (digitsToNat (intDs ++ fracDs) : Int)
      let expv : Int := match cs2 with
        | e :: rest =>
          if e = 'e' || e = 'E' then
            let esign : Int := match rest with
              | '-' :: _ => -1
              | _ => 1
            let rest2 := match rest with
              | '+' :: r => r
              | '-' :: r => r
              | _ => rest
            let eds := rest2.takeWhile isDigitCh
            if eds = [] then 0 else esign * (digitsToNat eds : Int)
          else 0
        | [] => 0
      let scale : Int := expv - (fracDs.length : Int)
      let num : Int := (if signed then -mant else mant) * 10 ^ (max scale 0).toNat
      let den : Int := 10 ^ (max (-scale) 0).toNat
      JNum.finite (Rat.divInt num den)

/-- `safeNumber` (src/utils/balloonData.ts lines 16–23): a native number is
returned unless it is NaN; a string is parsed with `parseFloat` and returned
when the parse is neither NaN nor non-finite; everything else yields null. -/
def safeNumber : JSValue → Option JNum
  | .num n => if !n.isNaNb then some n else none
  | .str s =>
    let parsed := parseFloat s
    if !parsed.isNaNb && parsed.isFiniteNum then some parsed else none
  | _ => none

example : parseFloat "12.5" = JNum.finite (Rat.divInt 25 2) := by decide
example : parseFloat "abc" = JNum.nan := by decide
example : parseFloat "Infinity" = JNum.posInf := by decide
example : parseFloat "12.5abc" = JNum.finite (Rat.divInt 25 2) := by decide
example : parseFloat "1e3" = JNum.finite 1000 := by decide
example : parseFloat "-2.5e-1" = JNum.finite (Rat.divInt (-1) 4) := by decide
example : parseFloat ".5" = JNum.finite (Rat.divInt 1 2) := by decide
example : parseFloat "." = JNum.nan := by decide
example : safeNumber (.str "12.5") = some (JNum.finite (Rat.divInt 25 2)) := by decide
example : safeNumber (.str "Infinity") = none := by decide
example : safeNumber (.num .posInf) = some JNum.posInf := by decide
example : safeNumber (.num .nan) = none := by decide

/-- JS property access `v?.[key]` / `v?.key` for the keys the extractor probes:
on an object, look the key up (JSON objects are assumed to have unique keys);
on an array, a canonical numeric key indexes the array; any miss, and any
access on a primitive, yields `undefined`. -/
def getKey (v : JSValue) (key : String) : JSValue :=
  match v with
  | .obj fs => (fs.lookup key).getD .undefined
  | .arr xs =>
    match key.toNat? with
    | some i => (xs.getD i .undefined)
    | none => .undefined
  | _ => .undefined

/-- JS nullish coalescing `a ?? b`. -/
def nullish (a b : JSValue) : JSValue :=
  match a with
  | .null => b
  | .undefined => b
  | _ => a

/-- JS `<=` on numbers: any comparison involving NaN is false. -/
def jsLe : JNum → JNum → Bool
  | .nan, _ => false
  | _, .nan => false
  | .finite a, .finite b => a ≤ b
  | .negInf, _ => true
  | .posInf, .posInf => true
  | .posInf, _ => false
  | .finite _, .posInf => true
  | .finite _, .negInf => false

/-- JS `a >= b`, i.e. `b <= a` (false whenever NaN is involved). -/
def jsGe (a b : JNum) : Bool := jsLe b a

/-- A validated balloon position (interface `BalloonPosition`).  The extractor
always sets `hourIndex`, so it is modelled as a plain `Nat` (the TS field is
optional with a `?? 24` fallback in the deduplicator that never fires on
extractor output). -/
structure BalloonPosition where
  id : String
  lat : JNum
  lon : JNum
  altitude : Option JNum
  hourIndex : Nat
deriving DecidableEq, Repr

def mkId (hourIndex idx : Nat) : String :=
  "balloon-" ++ toString hourIndex ++ "-" ++ toString idx

/-- The per-element lat/lon/alt probing shared by the three extraction
branches (src/utils/balloonData.ts lines 39–54): an array of length ≥ 2 is
read positionally; otherwise a truthy object (which includes shorter arrays)
is probed by key with nullish-coalescing fallbacks; anything else gives no
coordinates. -/
def probeItem (item : JSValue) : Option JNum × Option JNum × Option JNum :=
  match item with
  | .arr xs =>
    if xs.length ≥ 2 then
      (safeNumber (xs.getD 0 .undefined),
       safeNumber (xs.getD 1 .undefined),
       if xs.length ≥ 3 then safeNumber (xs.getD 2 .undefined) else none)
    else
      probeObject (.arr xs)
  | .obj fs => probeObject (.obj fs)
  | _ => (none, none, none)
where
  /-- The keyed-object fallback: `item?.lat ?? item?.latitude ?? item?.y ?? item?.[0]`
  and its analogues for longitude and altitude. -/
  probeObject (item : JSValue) : Option JNum × Option JNum × Option JNum :=
    (safeNumber (nullish (getKey item "lat") (nullish (getKey item "latitude")
        (nullish (getKey item "y") (getKey item "0")))),
     safeNumber (nullish (getKey item "lon") (nullish (getKey item "lng")
        (nullish (getKey item "longitude") (getKey item "1")))),
     safeNumber (nullish (getKey item "alt") (nullish (getKey item "altitude")
        (nullish (getKey item "z") (getKey item "2")))))

/-- One loop iteration of the extractor (lines 39–66): probe the element, then
push a position exactly when latitude and longitude are both present and in
range (`lat >= -90 && lat <= 90 && lon >= -180 && lon <= 180`); a failed
altitude coercion only drops the altitude (`alt ?? undefined`). -/
def itemToPosition (hourIndex idx : Nat) (item : JSValue) : Option BalloonPosition :=
  match (probeItem item).1, (probeItem item).2.1 with
  | some lat, some lon =>
    if jsGe lat (.finite (-90)) && jsLe lat (.finite 90) &&
       jsGe lon (.finite (-180)) && jsLe lon (.finite 180) then
      some ⟨mkId hourIndex idx, lat, lon, (probeItem item).2.2, hourIndex⟩
    else none
  | _, _ => none

/-- The `forEach` accumulation over the raw element list, carrying the running
array index. -/
def extractFromListAux (hourIndex idx : Nat) : List JSValue → List BalloonPosition
  | [] => []
  | item :: rest =>
    match itemToPosition hourIndex idx item with
    | some p => p :: extractFromListAux hourIndex (idx + 1) rest
    | none => extractFromListAux hourIndex (idx + 1) rest

/-- `extractBalloonPositions` (lines 29–134): falsy or non-object input yields
no positions; an array is scanned directly; otherwise an object is scanned
through its `balloons` array if that key holds an array, else through its
`data` array if that key holds an array, else nothing.  The body is a total
function, so the source's top-level try/catch can never fire in the model. -/
def extractBalloonPositions (data : JSValue) (hourIndex : Nat) : List BalloonPosition :=
  match data with
  | .arr items => extractFromListAux hourIndex 0 items
  | .obj fs =>
    match getKey (.obj fs) "balloons" with
    | .arr items => extractFromListAux hourIndex 0 items
    | _ =>
      match getKey (.obj fs) "data" with
      | .arr items => extractFromListAux hourIndex 0 items
      | _ => []
  | _ => []

/-- One `balloonMap.set`-guarded insertion (lines 148–153): keep the map
unchanged unless the key is absent (append) or the existing entry has a
strictly larger `hourIndex` (replace in place).  The JS `Map` is modelled as
an insertion-ordered association list. -/
def insertPos (m : List (String × BalloonPosition)) (pos : BalloonPosition) :
    List (String × BalloonPosition) :=
  match m.lookup pos.id with
  | none => m ++ [(pos.id, pos)]
  | some existing =>
    if pos.hourIndex < existing.hourIndex then
      m.map (fun kv => if kv.1 = pos.id then (pos.id, pos) else kv)
    else m

/-- `extractAllBalloonPositions` (lines 140–157): walk the hourly snapshots in
order (hour 0 first), skip falsy entries, extract each hour, and fold every
extracted position into the deduplicating map; the result is the map's values
in insertion order. -/
def extractAllBalloonPositions (data24h : List JSValue) : List BalloonPosition :=
  (data24h.enum.foldl
    (fun m hd =>
      if jsTruthy hd.2 then
        (extractBalloonPositions hd.2 hd.1).foldl insertPos m
      else m)
    []).map Prod.snd

example : extractBalloonPositions (.arr [.arr [.num (.finite 10), .num (.finite 20), .num (.finite 5000)]]) 0 =
    [⟨"balloon-0-0", .finite 10, .finite 20, some (.finite 5000), 0⟩] := by decide
example : extractBalloonPositions (.arr [.arr [.num (.finite 91), .num (.finite 0)]]) 0 = [] := by decide
example : extractBalloonPositions (.arr [.arr [.num (.finite 90), .num (.finite 180)]]) 0 =
    [⟨"balloon-0-0", .finite 90, .finite 180, none, 0⟩] := by decide
example : extractBalloonPositions .null 3 = [] := by decide
example : extractBalloonPositions (.str "junk") 3 = [] := by decide
example : extractBalloonPositions (.obj [("balloons", .arr [.arr [.num (.finite 1), .num (.finite 2)]])]) 1 =
    [⟨"balloon-1-0", .finite 1, .finite 2, none, 1⟩] := by decide
example : extractBalloonPositions
    (.obj [("data", .arr [.obj [("lat", .num (.finite 3)), ("lon", .num (.finite 4))]])]) 2 =
    [⟨"balloon-2-0", .finite 3, .finite 4, none, 2⟩] := by decide
example : extractAllBalloonPositions
    [.arr [.arr [.num (.finite 10), .num (.finite 20)]],
     .arr [.arr [.num (.finite 30), .num (.finite 40)]]] =
    [⟨"balloon-0-0", .finite 10, .finite 20, none, 0⟩,
     ⟨"balloon-1-0", .finite 30, .finite 40, none, 1⟩] := by decide

/-- A GeoJSON geometry as dispatched on by the map components.  Coordinates
are `(lon, lat)` pairs per GeoJSON convention (`coordinates[0]` is longitude,
`coordinates[1]` is latitude). -/
inductive Geometry where
  | point (lon lat : ℚ)
  | polygon (rings : List (List (ℚ × ℚ)))
  | multiPolygon (polys : List (List (List (ℚ × ℚ))))
  | other
deriving DecidableEq, Repr

/-- A hazard advisory feature as consumed by BalloonMap.tsx.  Only the fields
the classifier, sorter and navigator read are modelled; `severity` and
`urgency` are strings when present in the NWS feed, `none` models an absent
field (JS `undefined`). -/
structure AlertFeature where
  severity : Option String
  urgency : Option String
  geometry : Option Geometry
deriving DecidableEq, Repr

/-- JS `.toLowerCase()` (ASCII, which covers the NWS vocabulary), written
over the character list so that it is kernel-computable. -/
def jsToLower (s : String) : String := String.mk (s.data.map Char.toLower)

/-- `(s || '').toLowerCase()`: an absent field — like any falsy value, in
particular the empty string — defaults to `''` before lowercasing. -/
def lowerOrEmpty (s : Option String) : String := jsToLower (s.getD "")

/-- The style record returned by `getAlertStyle`. -/
structure AlertStyle where
  fillColor : String
  color : String
  weight : ℚ
  opacity : ℚ
  fillOpacity : ℚ
  dashArray : Option String
deriving DecidableEq, Repr

/-- `getAlertStyle` (src/components/BalloonMap.tsx lines 94–120): lowercase
the (falsy-defaulted) severity and urgency, then run the if/else chain over
them; the `let color = '#FF6B6B'` initialisation is the fall-through value. -/
def getAlertStyle (f : AlertFeature) : AlertStyle :=
  let severity := lowerOrEmpty f.severity
  let urgency := lowerOrEmpty f.urgency
  let color :=
    if severity = "extreme" || urgency = "immediate" then "#C92A2A"
    else if severity = "severe" then "#F76707"
    else if severity = "moderate" then "#FFD43B"
    else if severity = "minor" || severity = "unknown" then "#51CF66"
    else if urgency = "expected" then "#F76707"
    else "#FF6B6B"
  { fillColor := color
    color := color
    weight := 5
    opacity := 1
    fillOpacity := 1/2
    dashArray := if severity = "extreme" || urgency = "immediate"
      then some "10, 5" else none }

/-- The `validAlerts` filter (lines 138–143): keep only alerts whose geometry
is present and of type Polygon, MultiPolygon or Point. -/
def validAlerts (alerts : List AlertFeature) : List AlertFeature :=
  alerts.filter fun a =>
    match a.geometry with
    | some (.point _ _) => true
    | some (.polygon _) => true
    | some (.multiPolygon _) => true
    | _ => false

/-- The `severityOrder` lookup table (lines 147–153) with the `?? 99`
fallback for unrecognized severities. -/
def severityOrder (s : String) : Nat :=
  if s = "extreme" then 0
  else if s = "severe" then 1
  else if s = "moderate" then 2
  else if s = "minor" then 3
  else if s = "unknown" then 4
  else 99

/-- The sort key of `sortedAlerts`: `(a?.properties?.severity || 'unknown').toLowerCase()`
fed through `severityOrder`.  Only the severity property participates;
urgency is not consulted. -/
def alertSortKey (a : AlertFeature) : Nat :=
  severityOrder (jsToLower (match a.severity with
    | some s => if s = "" then "unknown" else s
    | none => "unknown"))

/-- `sortedAlerts` (lines 146–160): a stable sort of the valid alerts by
ascending severity rank.  JS `Array.prototype.sort` is stable, which
`List.mergeSort` models. -/
def sortedAlerts (alerts : List AlertFeature) : List AlertFeature :=
  (validAlerts alerts).mergeSort (fun a b => alertSortKey a ≤ alertSortKey b)

/-- A navigation command issued by `MapController` to the Leaflet map:
either `flyTo` a center at a zoom level, or `flyToBounds` of a south-west /
north-east box with a padding margin and a zoom cap. -/
inductive NavAction where
  | flyTo (lat lon : ℚ) (zoom : ℚ)
  | flyToBounds (minLat minLon maxLat maxLon : ℚ)
      (padX padY : ℚ) (maxZoom : ℚ)
deriving DecidableEq, Repr

/-- Arithmetic-mean center of a ring of `(lon, lat)` vertices, as computed on
lines 59–62 / 72–75: `(latSum / coords.length, lonSum / coords.length)`. -/
def ringCenter (ring : List (ℚ × ℚ)) : ℚ × ℚ :=
  ((ring.map Prod.snd).sum / ring.length, (ring.map Prod.fst).sum / ring.length)

/-- Minimal bounding box of a nonempty ring of `(lon, lat)` vertices, the
`LatLngBounds` built on lines 65–67 / 77–79:
`(minLat, minLon, maxLat, maxLon)`. -/
def ringBounds (c : ℚ × ℚ) (rest : List (ℚ × ℚ)) : ℚ × ℚ × ℚ × ℚ :=
  ((rest.map Prod.snd).foldl min c.2, (rest.map Prod.fst).foldl min c.1,
   (rest.map Prod.snd).foldl max c.2, (rest.map Prod.fst).foldl max c.1)

/-- The navigation effect of `MapController` (lines 49–88) on a selected
alert's geometry.  A Point flies to `(coordinates[1], coordinates[0])` at the
default zoom 10; a Polygon with a first ring flies to the bounds of that ring
with padding `[100, 100]` capped at zoom 12; a MultiPolygon uses its first
polygon's first ring the same way; any other geometry (and a Polygon without
a first ring) produces no action.  Degenerate empty rings — on which the
source would hand Leaflet an empty `LatLngBounds`, which Leaflet rejects, or
index `undefined` — are modelled as producing no action. -/
def mapController (geometry : Option Geometry) : Option NavAction :=
  match geometry with
  | some (.point lon lat) => some (.flyTo lat lon 10)
  | some (.polygon rings) =>
    match rings with
    | (c :: rest) :: _ =>
      let b := ringBounds c rest
      some (.flyToBounds b.1 b.2.1 b.2.2.1 b.2.2.2 100 100 12)
    | _ => none
  | some (.multiPolygon polys) =>
    match polys with
    | ((c :: rest) :: _) :: _ =>
      let b := ringBounds c rest
      some (.flyToBounds b.1 b.2.1 b.2.2.1 b.2.2.2 100 100 12)
    | _ => none
  | _ => none

example : (getAlertStyle ⟨none, none, none⟩).color = "#FF6B6B" := by decide
example : (getAlertStyle ⟨some "Extreme", none, none⟩).color = "#C92A2A" := by decide
example : (getAlertStyle ⟨none, some "Immediate", none⟩).color = "#C92A2A" := by decide
example : (getAlertStyle ⟨some "Moderate", none, none⟩).color = "#FFD43B" := by decide
example : mapController (some (.point 5 7)) = some (.flyTo 7 5 10) := by decide
example : mapController (some .other) = none := by decide

/-- Helper: a JS number squeezed between two finite bounds by successful
(non-NaN) comparisons is itself finite and within those bounds. -/
theorem jsLe_finite_squeeze {a b : ℚ} {x : JNum}
    (h1 : jsLe (.finite a) x = true) (h2 : jsLe x (.finite b) = true) :
    ∃ q, x = JNum.finite q ∧ a ≤ q ∧ q ≤ b := by
  cases x with
  | finite q =>
    refine ⟨q, rfl, ?_, ?_⟩
    · simpa [jsLe] using h1
    · simpa [jsLe] using h2
  | posInf => simp [jsLe] at h2
  | negInf => simp [jsLe] at h1
  | nan => simp [jsLe] at h1

/-- C3 counterexample: the claim says every accepted value is finite, but a
native `Infinity` passes the NaN-only check on the number branch and is
returned even though it is not finite. -/
theorem C3_counterexample :
    safeNumber (.num .posInf) = some JNum.posInf ∧ JNum.posInf.isFiniteNum = false := by
  decide

/-- C3 (amended): `safeNumber` returns a number or absent; native numeric
values that are not NaN are accepted as-is — including the non-finite
infinities — while string inputs are accepted only when the parsed value is
finite, and every other input type resolves to absent.  `"12.5"` → 12.5,
`"abc"` → absent, an Infinity-valued string → absent; the model is a total
function, so no exception escapes. -/
theorem safeNumber_contract :
    (∀ q : ℚ, safeNumber (.num (.finite q)) = some (.finite q)) ∧
    safeNumber (.num .nan) = none ∧
    safeNumber (.num .posInf) = some .posInf ∧
    safeNumber (.num .negInf) = some .negInf ∧
    (∀ s n, safeNumber (.str s) = some n → n.isFiniteNum = true) ∧
    safeNumber (.str "12.5") = some (.finite (Rat.divInt 25 2)) ∧
    safeNumber (.str "abc") = none ∧
    safeNumber (.str "Infinity") = none ∧
    safeNumber .null = none ∧
    safeNumber .undefined = none ∧
    (∀ b, safeNumber (.bool b) = none) ∧
    (∀ xs, safeNumber (.arr xs) = none) ∧
    (∀ fs, safeNumber (.obj fs) = none) := by
  refine ⟨fun q => rfl, by decide, by decide, by decide, ?_, by decide, by decide,
    by decide, rfl, rfl, fun b => rfl, fun xs => rfl, fun fs => rfl⟩
  intro s n h
  simp only [safeNumber] at h
  split at h
  · rename_i hc
    cases h
    exact (Bool.and_eq_true _ _ ▸ hc).2
  · exact absurd h (by simp)

/-- C3 witness: the string branch of the contract applied at `"12.5"`. -/
theorem safeNumber_contract_witness :
    JNum.isFiniteNum (.finite (Rat.divInt 25 2)) = true :=
  safeNumber_contract.2.2.2.2.1 "12.5" (.finite (Rat.divInt 25 2)) (by decide)

/-- C10 counterexample: `"Infinity"` has a numeric head (its parse is not
NaN), yet it coerces to absent, so absence is not reserved to strings whose
leading text is non-numeric. -/
theorem C10_counterexample :
    parseFloat "Infinity" = JNum.posInf ∧ JNum.posInf.isNaNb = false ∧
    safeNumber (.str "Infinity") = none := by
  decide

/-- C10 (amended): string coercion uses leading-head float parsing —
`"12.5abc"` coerces to 12.5, the parse of its numeric head — and a string
coerces to absent exactly when its parsed head is NaN (no numeric head, like
`"abc"`) or non-finite (like `"Infinity"`). -/
theorem safeNumber_string_head :
    safeNumber (.str "12.5abc") = some (.finite (Rat.divInt 25 2)) ∧
    safeNumber (.str "abc") = none ∧
    ∀ s, safeNumber (.str s) = none ↔
      ((parseFloat s).isNaNb = true ∨ (parseFloat s).isFiniteNum = false) := by
  refine ⟨by decide, by decide, fun s => ?_⟩
  simp only [safeNumber]
  constructor
  · intro h
    by_cases h1 : (parseFloat s).isNaNb = true
    · exact Or.inl h1
    · by_cases h2 : (parseFloat s).isFiniteNum = true
      · rw [if_pos (by simp [h1, h2])] at h
        exact absurd h (by simp)
      · exact Or.inr (by simpa using h2)
  · intro h
    rcases h with h | h <;> simp [h]

/-- C1 counterexample: on the all-absent advisory `{}` the style function
yields the default red `#FF6B6B`, not a neutral gray (the gray `#64748b` is
used only by the popup/list severity colorer), and an absent field defaults
to the empty string, not to `"unknown"`. -/
theorem C1_counterexample :
    (getAlertStyle ⟨none, none, none⟩).color = "#FF6B6B" ∧
    "#FF6B6B" ≠ "#64748b" ∧
    lowerOrEmpty (none : Option String) = "" ∧
    "" ≠ "unknown" := by
  decide

/-- C1 (amended): absent severity and urgency default to the empty string
before the case-insensitive comparison, and an advisory matching none of the
five priority rules keeps the initial default red `#FF6B6B` (fill and stroke);
in particular an advisory with all fields absent matches no rule — its
defaulted severity `""` is not `"unknown"` — and yields `#FF6B6B`. -/
theorem getAlertStyle_fallthrough :
    lowerOrEmpty (none : Option String) = "" ∧
    (getAlertStyle ⟨none, none, none⟩).color = "#FF6B6B" ∧
    (getAlertStyle ⟨none, none, none⟩).fillColor = "#FF6B6B" ∧
    ∀ f : AlertFeature,
      lowerOrEmpty f.severity ≠ "extreme" → lowerOrEmpty f.severity ≠ "severe" →
      lowerOrEmpty f.severity ≠ "moderate" → lowerOrEmpty f.severity ≠ "minor" →
      lowerOrEmpty f.severity ≠ "unknown" → lowerOrEmpty f.urgency ≠ "immediate" →
      lowerOrEmpty f.urgency ≠ "expected" →
      (getAlertStyle f).color = "#FF6B6B" ∧ (getAlertStyle f).fillColor = "#FF6B6B" := by
  refine ⟨rfl, by decide, by decide, ?_⟩
  intro f h1 h2 h3 h4 h5 h6 h7
  simp [getAlertStyle, h1, h2, h3, h4, h5, h6, h7]

/-- C1 witness: the fall-through rule applied to an advisory with an
unrecognized severity and urgency. -/
theorem getAlertStyle_fallthrough_witness :
    (getAlertStyle ⟨some "Bananas", some "Past", none⟩).color = "#FF6B6B" ∧
    (getAlertStyle ⟨some "Bananas", some "Past", none⟩).fillColor = "#FF6B6B" :=
  getAlertStyle_fallthrough.2.2.2 ⟨some "Bananas", some "Past", none⟩
    (by decide) (by decide) (by decide) (by decide) (by decide) (by decide) (by decide)

theorem foldl_min_le_init (l : List ℚ) (a : ℚ) : l.foldl min a ≤ a := by
  induction l generalizing a with
  | nil => simp
  | cons x t ih => exact le_trans (ih (min a x)) (min_le_left a x)

theorem foldl_min_le_mem (l : List ℚ) (a x : ℚ) (hx : x ∈ l) : l.foldl min a ≤ x := by
  induction l generalizing a with
  | nil => cases hx
  | cons y t ih =>
    rcases List.mem_cons.mp hx with h | h
    · subst h
      exact le_trans (foldl_min_le_init t (min a x)) (min_le_right a x)
    · exact ih (min a y) h

theorem init_le_foldl_max (l : List ℚ) (a : ℚ) : a ≤ l.foldl max a := by
  induction l generalizing a with
  | nil => simp
  | cons x t ih => exact le_trans (le_max_left a x) (ih (max a x))

theorem mem_le_foldl_max (l : List ℚ) (a x : ℚ) (hx : x ∈ l) : x ≤ l.foldl max a := by
  induction l generalizing a with
  | nil => cases hx
  | cons y t ih =>
    rcases List.mem_cons.mp hx with h | h
    · subst h
      exact le_trans (le_max_right a x) (init_le_foldl_max t (max a x))
    · exact ih (max a y) h

/-- Helper: every vertex of the ring lies inside the computed bounding box. -/
theorem ringBounds_encloses (c : ℚ × ℚ) (rest : List (ℚ × ℚ)) (v : ℚ × ℚ)
    (hv : v ∈ c :: rest) :
    (ringBounds c rest).1 ≤ v.2 ∧ v.2 ≤ (ringBounds c rest).2.2.1 ∧
    (ringBounds c rest).2.1 ≤ v.1 ∧ v.1 ≤ (ringBounds c rest).2.2.2 := by
  rcases List.mem_cons.mp hv with h | h
  · subst h
    exact ⟨foldl_min_le_init _ _, init_le_foldl_max _ _,
      foldl_min_le_init _ _, init_le_foldl_max _ _⟩
  · exact ⟨foldl_min_le_mem _ _ _ (List.mem_map_of_mem Prod.snd h),
      mem_le_foldl_max _ _ _ (List.mem_map_of_mem Prod.snd h),
      foldl_min_le_mem _ _ _ (List.mem_map_of_mem Prod.fst h),
      mem_le_foldl_max _ _ _ (List.mem_map_of_mem Prod.fst h)⟩

/-- C9: a Point flies to the point itself at the fixed default zoom 10; a
Polygon flies to the minimal box of its first ring with fixed padding
`[100, 100]` and zoom cap 12, the computed center being the arithmetic mean
of the ring's vertices — on the ring `[[0,0],[0,2],[2,2],[2,0]]` the center
is `(lat 1, lon 1)` and the box `(0,0)–(2,2)` covers all four vertices; a
MultiPolygon uses only its first polygon's first ring under the same rule;
any other geometry produces no navigation target. -/
theorem mapController_spec :
    (∀ lon lat : ℚ, mapController (some (.point lon lat)) = some (.flyTo lat lon 10)) ∧
    (∀ (c : ℚ × ℚ) rest rings,
      mapController (some (.polygon ((c :: rest) :: rings))) =
        some (.flyToBounds (ringBounds c rest).1 (ringBounds c rest).2.1
          (ringBounds c rest).2.2.1 (ringBounds c rest).2.2.2 100 100 12)) ∧
    (∀ (c : ℚ × ℚ) rest ps polys,
      mapController (some (.multiPolygon (((c :: rest) :: ps) :: polys))) =
        some (.flyToBounds (ringBounds c rest).1 (ringBounds c rest).2.1
          (ringBounds c rest).2.2.1 (ringBounds c rest).2.2.2 100 100 12)) ∧
    (∀ (c : ℚ × ℚ) rest (v : ℚ × ℚ), v ∈ c :: rest →
      (ringBounds c rest).1 ≤ v.2 ∧ v.2 ≤ (ringBounds c rest).2.2.1 ∧
      (ringBounds c rest).2.1 ≤ v.1 ∧ v.1 ≤ (ringBounds c rest).2.2.2) ∧
    ringCenter [(0, 0), (0, 2), (2, 2), (2, 0)] = (1, 1) ∧
    ringBounds (0, 0) [(0, 2), (2, 2), (2, 0)] = (0, 0, 2, 2) ∧
    mapController (some .other) = none ∧
    mapController none = none := by
  refine ⟨fun lon lat => rfl, fun c rest rings => rfl, fun c rest ps polys => rfl,
    ringBounds_encloses, ?_, ?_, rfl, rfl⟩
  · simp only [ringCenter, List.map, List.sum_cons, List.sum_nil, List.length]
    norm_num
  · simp only [ringBounds, List.map, List.foldl]
    norm_num

/-- C9 witness: the bounding-box enclosure applied to the vertex `(2, 0)` of
the example ring. -/
theorem mapController_spec_witness :
    (ringBounds ((0 : ℚ), (0 : ℚ)) [(0, 2), (2, 2), (2, 0)]).1 ≤ (0 : ℚ) ∧
    (0 : ℚ) ≤ (ringBounds ((0 : ℚ), (0 : ℚ)) [(0, 2), (2, 2), (2, 0)]).2.2.1 ∧
    (ringBounds ((0 : ℚ), (0 : ℚ)) [(0, 2), (2, 2), (2, 0)]).2.1 ≤ (2 : ℚ) ∧
    (2 : ℚ) ≤ (ringBounds ((0 : ℚ), (0 : ℚ)) [(0, 2), (2, 2), (2, 0)]).2.2.2 :=
  mapController_spec.2.2.2.1 (0, 0) [(0, 2), (2, 2), (2, 0)] (2, 0) (by simp)

/-- C7: the raw element sequence is chosen by precedence — an array input is
used directly; else an object's `balloons` key is used when it holds an
array; else its `data` key when that holds an array; else, and for every
non-object payload, no positions are produced (never an error: the model is
total). -/
theorem extract_shape_dispatch :
    (∀ h items, extractBalloonPositions (.arr items) h = extractFromListAux h 0 items) ∧
    (∀ h fs items, getKey (.obj fs) "balloons" = .arr items →
      extractBalloonPositions (.obj fs) h = extractFromListAux h 0 items) ∧
    (∀ h fs items, (∀ xs, getKey (.obj fs) "balloons" ≠ .arr xs) →
      getKey (.obj fs) "data" = .arr items →
      extractBalloonPositions (.obj fs) h = extractFromListAux h 0 items) ∧
    (∀ h fs, (∀ xs, getKey (.obj fs) "balloons" ≠ .arr xs) →
      (∀ xs, getKey (.obj fs) "data" ≠ .arr xs) →
      extractBalloonPositions (.obj fs) h = []) ∧
    (∀ h, extractBalloonPositions .null h = []) ∧
    (∀ h, extractBalloonPositions .undefined h = []) ∧
    (∀ h b, extractBalloonPositions (.bool b) h = []) ∧
    (∀ h n, extractBalloonPositions (.num n) h = []) ∧
    (∀ h s, extractBalloonPositions (.str s) h = []) := by
  refine ⟨fun h items => rfl, ?_, ?_, ?_, fun h => rfl, fun h => rfl,
    fun h b => rfl, fun h n => rfl, fun h s => rfl⟩
  · intro h fs items hb
    simp only [extractBalloonPositions, hb]
  · intro h fs items hb hd
    rcases hB : getKey (.obj fs) "balloons" with _ | _ | b | n | s | xs | fs2
    case arr => exact absurd hB (hb xs)
    all_goals simp only [extractBalloonPositions, hB, hd]
  · intro h fs hb hd
    rcases hB : getKey (.obj fs) "balloons" with _ | _ | b | n | s | xs | fs2
    case arr => exact absurd hB (hb xs)
    all_goals
      rcases hD : getKey (.obj fs) "data" with _ | _ | b2 | n2 | s2 | ys | gs
    all_goals
      first
      | exact absurd hD (hd ys)
      | simp only [extractBalloonPositions, hB, hD]

/-- C7 witness: the dispatch applied to an object whose `balloons` key is not
an array but whose `data` key is. -/
theorem extract_shape_dispatch_witness :
    extractBalloonPositions
      (.obj [("balloons", .str "oops"),
             ("data", .arr [.arr [.num (.finite 1), .num (.finite 2)]])]) 4 =
    extractFromListAux 4 0 [.arr [.num (.finite 1), .num (.finite 2)]] :=
  extract_shape_dispatch.2.2.1 4
    [("balloons", .str "oops"),
     ("data", .arr [.arr [.num (.finite 1), .num (.finite 2)]])]
    [.arr [.num (.finite 1), .num (.finite 2)]]
    (fun xs h => nomatch h) rfl

/-- C8: extraction never fails — a null, undefined or empty snapshot yields
the empty sequence; a malformed element is skipped individually, the scan
continuing with the next index, while a well-formed element contributes its
position and likewise never aborts the rest; the embedding is a total
function, so the source's top-level catch is unreachable. -/
theorem extract_degrades :
    (∀ h, extractBalloonPositions .null h = []) ∧
    (∀ h, extractBalloonPositions .undefined h = []) ∧
    (∀ h, extractBalloonPositions (.arr []) h = []) ∧
    (∀ h idx bad rest, itemToPosition h idx bad = none →
      extractFromListAux h idx (bad :: rest) = extractFromListAux h (idx + 1) rest) ∧
    (∀ h idx item rest p, itemToPosition h idx item = some p →
      extractFromListAux h idx (item :: rest) = p :: extractFromListAux h (idx + 1) rest) := by
  refine ⟨fun h => rfl, fun h => rfl, fun h => rfl, ?_, ?_⟩
  · intro h idx bad rest hbad
    simp [extractFromListAux, hbad]
  · intro h idx item rest p hp
    simp [extractFromListAux, hp]

/-- C8 witness: a malformed middle element (a bare string) is skipped while
the following element is still extracted. -/
theorem extract_degrades_witness :
    extractFromListAux 0 0 [.str "junk", .arr [.num (.finite 1), .num (.finite 2)]] =
    extractFromListAux 0 1 [.arr [.num (.finite 1), .num (.finite 2)]] :=
  extract_degrades.2.2.2.1 0 0 (.str "junk")
    [.arr [.num (.finite 1), .num (.finite 2)]] (by decide)

/-- Helper: any position produced by the per-element step has finite
coordinates within the accepted ranges. -/
theorem itemToPosition_some_range {h idx : Nat} {item : JSValue} {p : BalloonPosition}
    (hp : itemToPosition h idx item = some p) :
    (∃ a, p.lat = JNum.finite a ∧ -90 ≤ a ∧ a ≤ 90) ∧
    (∃ b, p.lon = JNum.finite b ∧ -180 ≤ b ∧ b ≤ 180) := by
  rcases h1 : (probeItem item).1 with _ | lat
  · simp only [itemToPosition, h1] at hp
    exact Option.noConfusion hp
  rcases h2 : (probeItem item).2.1 with _ | lon
  · simp only [itemToPosition, h1, h2] at hp
    exact Option.noConfusion hp
  simp only [itemToPosition, h1, h2] at hp
  split at hp
  · rename_i hc
    simp only [Bool.and_eq_true] at hc
    obtain ⟨⟨⟨hc1, hc2⟩, hc3⟩, hc4⟩ := hc
    cases hp
    exact ⟨jsLe_finite_squeeze hc1 hc2, jsLe_finite_squeeze hc3 hc4⟩
  · exact Option.noConfusion hp

/-- Helper: membership in the element scan comes from some element accepted
by the per-element step. -/
theorem mem_extractFromListAux {h idx : Nat} {items : List JSValue} {p : BalloonPosition}
    (hp : p ∈ extractFromListAux h idx items) :
    ∃ idx2 item, itemToPosition h idx2 item = some p := by
  induction items generalizing idx with
  | nil => cases hp
  | cons a rest ih =>
    simp only [extractFromListAux] at hp
    rcases hI : itemToPosition h idx a with _ | q
    · rw [hI] at hp
      exact ih hp
    · rw [hI] at hp
      rcases List.mem_cons.mp hp with h1 | h1
      · exact ⟨idx, a, by rw [hI, h1]⟩
      · exact ih h1

/-- Helper: membership in the extractor output comes from some element
accepted by the per-element step, whatever the payload shape. -/
theorem mem_extract_exists {data : JSValue} {h : Nat} {p : BalloonPosition}
    (hp : p ∈ extractBalloonPositions data h) :
    ∃ idx2 item, itemToPosition h idx2 item = some p := by
  cases data with
  | arr items => exact mem_extractFromListAux hp
  | obj fs =>
    rcases hB : getKey (.obj fs) "balloons" with _ | _ | b | n | s | xs | fs2
    all_goals
      rcases hD : getKey (.obj fs) "data" with _ | _ | b2 | n2 | s2 | ys | gs
    all_goals simp only [extractBalloonPositions, hB, hD] at hp
    all_goals first | (exact mem_extractFromListAux hp) | cases hp
  | null => cases hp
  | undefined => cases hp
  | bool b => cases hp
  | num n => cases hp
  | str s => cases hp

/-- C4: every Position in the extractor's output has a finite latitude in
[-90, 90] and a finite longitude in [-180, 180] (an element is accepted only
if both coordinates are present and in range, boundaries inclusive), and a
failed altitude coercion alone never rejects a record — the position is
emitted with altitude omitted. -/
theorem extract_valid_range :
    (∀ data h p, p ∈ extractBalloonPositions data h →
      (∃ a, p.lat = JNum.finite a ∧ -90 ≤ a ∧ a ≤ 90) ∧
      (∃ b, p.lon = JNum.finite b ∧ -180 ≤ b ∧ b ≤ 180)) ∧
    (∀ h idx item lat lon, probeItem item = (some lat, some lon, none) →
      jsGe lat (.finite (-90)) = true → jsLe lat (.finite 90) = true →
      jsGe lon (.finite (-180)) = true → jsLe lon (.finite 180) = true →
      itemToPosition h idx item = some ⟨mkId h idx, lat, lon, none, h⟩) := by
  constructor
  · intro data h p hp
    obtain ⟨idx2, item, hI⟩ := mem_extract_exists hp
    exact itemToPosition_some_range hI
  · intro h idx item lat lon hprobe h1 h2 h3 h4
    simp only [itemToPosition, hprobe]
    simp [h1, h2, h3, h4]

/-- C4 witness: the validity parts applied to a concrete boundary payload
`[[90, 180, "bad-alt"]]`, whose altitude fails coercion but whose position is
still emitted. -/
theorem extract_valid_range_witness :
    ((∃ a, (⟨mkId 0 0, .finite 90, .finite 180, none, 0⟩ : BalloonPosition).lat =
        JNum.finite a ∧ -90 ≤ a ∧ a ≤ 90) ∧
     (∃ b, (⟨mkId 0 0, .finite 90, .finite 180, none, 0⟩ : BalloonPosition).lon =
        JNum.finite b ∧ -180 ≤ b ∧ b ≤ 180)) ∧
    itemToPosition 0 0 (.arr [.num (.finite 90), .num (.finite 180), .str "abc"]) =
      some ⟨mkId 0 0, .finite 90, .finite 180, none, 0⟩ :=
  ⟨extract_valid_range.1 (.arr [.arr [.num (.finite 90), .num (.finite 180)]]) 0
      ⟨mkId 0 0, .finite 90, .finite 180, none, 0⟩ (by decide),
   extract_valid_range.2 0 0 (.arr [.num (.finite 90), .num (.finite 180), .str "abc"])
      (.finite 90) (.finite 180) (by decide) (by decide) (by decide) (by decide) (by decide)⟩

/-- A well-formed positional element: an array of length ≥ 2 whose first two
entries coerce to an in-range latitude and longitude. -/
def validPair (item : JSValue) : Bool :=
  match item with
  | .arr xs =>
    decide (xs.length ≥ 2) &&
    (match safeNumber (xs.getD 0 .undefined), safeNumber (xs.getD 1 .undefined) with
     | some lat, some lon =>
       jsGe lat (.finite (-90)) && jsLe lat (.finite 90) &&
       jsGe lon (.finite (-180)) && jsLe lon (.finite 180)
     | _, _ => false)
  | _ => false

/-- Helper: a well-formed positional element is always accepted, with the
id and hourIndex determined by the scan position. -/
theorem itemToPosition_of_validPair {item : JSValue} (hv : validPair item = true)
    (h idx : Nat) :
    ∃ lat lon alt, itemToPosition h idx item = some ⟨mkId h idx, lat, lon, alt, h⟩ := by
  cases item with
  | arr xs =>
    simp only [validPair, Bool.and_eq_true, decide_eq_true_eq] at hv
    obtain ⟨hlen, hrest⟩ := hv
    rcases hA : safeNumber (xs.getD 0 .undefined) with _ | lat
    · rw [hA] at hrest
      simp at hrest
    rcases hB : safeNumber (xs.getD 1 .undefined) with _ | lon
    · rw [hA, hB] at hrest
      simp at hrest
    rw [hA, hB] at hrest
    have hpro : probeItem (.arr xs) =
        (safeNumber (xs.getD 0 .undefined), safeNumber (xs.getD 1 .undefined),
         if xs.length ≥ 3 then safeNumber (xs.getD 2 .undefined) else none) := by
      simp only [probeItem, if_pos hlen]
    simp only [Bool.and_eq_true] at hrest
    obtain ⟨⟨⟨hr1, hr2⟩, hr3⟩, hr4⟩ := hrest
    refine ⟨lat, lon, if xs.length ≥ 3 then safeNumber (xs.getD 2 .undefined) else none, ?_⟩
    simp only [itemToPosition, hpro, hA, hB]
    simp [hr1, hr2, hr3, hr4]
  | null => simp [validPair] at hv
  | undefined => simp [validPair] at hv
  | bool b => simp [validPair] at hv
  | num n => simp [validPair] at hv
  | str s => simp [validPair] at hv
  | obj fs => simp [validPair] at hv

/-- Helper: on an all-valid element list the scan emits exactly one position
per element, in order, with ids following the running index. -/
theorem extract_complete_aux (h : Nat) :
    ∀ (items : List JSValue) (idx : Nat), (∀ item ∈ items, validPair item = true) →
      (extractFromListAux h idx items).length = items.length ∧
      ∀ i (hi : i < (extractFromListAux h idx items).length),
        ((extractFromListAux h idx items).get ⟨i, hi⟩).id = mkId h (idx + i) ∧
        ((extractFromListAux h idx items).get ⟨i, hi⟩).hourIndex = h := by
  intro items
  induction items with
  | nil =>
    intro idx hv
    exact ⟨rfl, fun i hi => absurd hi (by simp [extractFromListAux])⟩
  | cons a rest ih =>
    intro idx hv
    obtain ⟨lat, lon, alt, hsome⟩ :=
      itemToPosition_of_validPair (hv a (List.mem_cons_self a rest)) h idx
    have hrest := ih (idx + 1) (fun item hm => hv item (List.mem_cons_of_mem a hm))
    have heq : extractFromListAux h idx (a :: rest) =
        (⟨mkId h idx, lat, lon, alt, h⟩ : BalloonPosition) ::
          extractFromListAux h (idx + 1) rest := by
      simp only [extractFromListAux, hsome]
    rw [heq]
    refine ⟨by simp [hrest.1], ?_⟩
    intro i hi
    cases i with
    | zero => exact ⟨by simp, rfl⟩
    | succ j =>
      have hj : j < (extractFromListAux h (idx + 1) rest).length := by
        simpa using Nat.lt_of_succ_lt_succ (by simpa using hi)
      have hgot := hrest.2 j hj
      have harith : idx + 1 + j = idx + (j + 1) := by omega
      refine ⟨?_, ?_⟩
      · simp only [List.get_cons_succ]
        rw [← harith]
        exact hgot.1
      · simp only [List.get_cons_succ]
        exact hgot.2

/-- C6: on an input array whose elements are all valid `[lat, lon(, alt)]`
pairs, the extractor outputs exactly one Position per input element, in input
order, each carrying the given hourIndex and the id
`balloon-{hourIndex}-{idx}` for its array index. -/
theorem extract_complete :
    ∀ (h : Nat) (items : List JSValue), (∀ item ∈ items, validPair item = true) →
      (extractBalloonPositions (.arr items) h).length = items.length ∧
      ∀ i (hi : i < (extractBalloonPositions (.arr items) h).length),
        ((extractBalloonPositions (.arr items) h).get ⟨i, hi⟩).id = mkId h i ∧
        ((extractBalloonPositions (.arr items) h).get ⟨i, hi⟩).hourIndex = h := by
  intro h items hv
  have haux := extract_complete_aux h items 0 hv
  simpa [extractBalloonPositions] using haux

/-- C6 witness: the completeness theorem applied to the two-element payload
`[[10, 20], [30, 40, 500]]` at hour 7. -/
theorem extract_complete_witness :
    (extractBalloonPositions
        (.arr [.arr [.num (.finite 10), .num (.finite 20)],
               .arr [.num (.finite 30), .num (.finite 40), .num (.finite 500)]]) 7).length =
      ([.arr [.num (.finite 10), .num (.finite 20)],
        .arr [.num (.finite 30), .num (.finite 40), .num (.finite 500)]] : List JSValue).length ∧
    ∀ i (hi : i < (extractBalloonPositions
        (.arr [.arr [.num (.finite 10), .num (.finite 20)],
               .arr [.num (.finite 30), .num (.finite 40), .num (.finite 500)]]) 7).length),
      ((extractBalloonPositions
        (.arr [.arr [.num (.finite 10), .num (.finite 20)],
               .arr [.num (.finite 30), .num (.finite 40), .num (.finite 500)]]) 7).get
          ⟨i, hi⟩).id = mkId 7 i ∧
      ((extractBalloonPositions
        (.arr [.arr [.num (.finite 10), .num (.finite 20)],
               .arr [.num (.finite 30), .num (.finite 40), .num (.finite 500)]]) 7).get
          ⟨i, hi⟩).hourIndex = 7 :=
  extract_complete 7
    [.arr [.num (.finite 10), .num (.finite 20)],
     .arr [.num (.finite 30), .num (.finite 40), .num (.finite 500)]]
    (by decide)

/-- Well-formedness of the deduplication map: keys are pairwise distinct and
every stored position carries its key as id. -/
def mapWF (m : List (String × BalloonPosition)) : Prop :=
  m.Pairwise (fun a b => a.1 ≠ b.1) ∧ ∀ kv ∈ m, kv.2.id = kv.1

/-- Helper: a failed lookup means no entry has that key. -/
theorem lookup_none_keys {k : String} {m : List (String × BalloonPosition)}
    (h : m.lookup k = none) : ∀ kv ∈ m, kv.1 ≠ k := by
  induction m with
  | nil => intro kv hkv; cases hkv
  | cons a t ih =>
    intro kv hkv
    rcases a with ⟨ak, av⟩
    rw [List.lookup_cons] at h
    split at h
    · cases h
    · rename_i hbeq
      rcases List.mem_cons.mp hkv with h1 | h1
      · subst h1
        intro hh
        simp at hbeq
        exact hbeq hh.symm
      · exact ih h kv h1

/-- Helper: one guarded insertion preserves the map invariant. -/
theorem insertPos_wf {m : List (String × BalloonPosition)} (hwf : mapWF m)
    (pos : BalloonPosition) : mapWF (insertPos m pos) := by
  rcases hL : m.lookup pos.id with _ | ex
  · have heq : insertPos m pos = m ++ [(pos.id, pos)] := by
      simp [insertPos, hL]
    rw [heq]
    constructor
    · rw [List.pairwise_append]
      refine ⟨hwf.1, List.pairwise_singleton _ _, ?_⟩
      intro a ha b hb
      rcases List.mem_singleton.mp hb with rfl
      exact lookup_none_keys hL a ha
    · intro kv hkv
      rcases List.mem_append.mp hkv with h1 | h1
      · exact hwf.2 kv h1
      · rcases List.mem_singleton.mp h1 with rfl
        rfl
  · have hkey : ∀ kv : String × BalloonPosition,
        ((fun kv => if kv.1 = pos.id then (pos.id, pos) else kv) kv).1 = kv.1 := by
      intro kv
      by_cases hk : kv.1 = pos.id <;> simp [hk]
    by_cases hlt : pos.hourIndex < ex.hourIndex
    · have heq : insertPos m pos =
          m.map (fun kv => if kv.1 = pos.id then (pos.id, pos) else kv) := by
        simp [insertPos, hL, hlt]
      rw [heq]
      constructor
      · rw [List.pairwise_map]
        exact hwf.1.imp (fun {a b} hab => by rw [hkey a, hkey b]; exact hab)
      · intro kv hkv
        rcases List.mem_map.mp hkv with ⟨kv0, hkv0, rfl⟩
        by_cases hk : kv0.1 = pos.id
        · simp [hk]
        · simpa [hk] using hwf.2 kv0 hkv0
    · have heq : insertPos m pos = m := by
        simp [insertPos, hL, hlt]
      rw [heq]
      exact hwf

/-- Helper: folding a batch of positions into the map preserves the
invariant. -/
theorem foldl_insertPos_wf (l : List BalloonPosition) :
    ∀ m, mapWF m → mapWF (l.foldl insertPos m) := by
  induction l with
  | nil => exact fun m h => h
  | cons p t ih => exact fun m h => ih _ (insertPos_wf h p)

/-- Helper: the whole hourly fold preserves the invariant, starting empty. -/
theorem extractAll_wf (data24h : List JSValue) :
    mapWF (data24h.enum.foldl
      (fun m hd =>
        if jsTruthy hd.2 then (extractBalloonPositions hd.2 hd.1).foldl insertPos m
        else m)
      []) := by
  have hgen : ∀ (l : List (Nat × JSValue)) (m), mapWF m →
      mapWF (l.foldl
        (fun m hd =>
          if jsTruthy hd.2 then (extractBalloonPositions hd.2 hd.1).foldl insertPos m
          else m)
        m) := by
    intro l
    induction l with
    | nil => exact fun m h => h
    | cons hd t ih =>
      intro m h
      simp only [List.foldl_cons]
      by_cases ht : jsTruthy hd.2 = true
      · rw [if_pos ht]
        exact ih _ (foldl_insertPos_wf _ m h)
      · rw [if_neg ht]
        exact ih _ h
  exact hgen _ [] ⟨List.Pairwise.nil, fun kv h => absurd h (List.not_mem_nil kv)⟩

/-- The spec's simulated id-collision scenario: the same id `X` observed at
hourIndex 0 and at hourIndex 5. -/
def posX0 : BalloonPosition := ⟨"X", .finite 10, .finite 20, none, 0⟩

def posX5 : BalloonPosition := ⟨"X", .finite 30, .finite 40, none, 5⟩

/-- C5: the merged output has at most one Position per id; an existing map
entry survives an insertion unless its hourIndex is strictly greater than
the candidate's, in which case it is replaced in place; under the simulated
collision of id X at hours 0 and 5 the hour-0 entry wins in either insertion
order; and re-running the merge on the same input yields the same result. -/
theorem merge_prefers_recent :
    (∀ data24h, (extractAllBalloonPositions data24h).Pairwise (fun p q => p.id ≠ q.id)) ∧
    (∀ m pos, m.lookup pos.id = none → insertPos m pos = m ++ [(pos.id, pos)]) ∧
    (∀ m pos ex, m.lookup pos.id = some ex → ¬ pos.hourIndex < ex.hourIndex →
      insertPos m pos = m) ∧
    (∀ m pos ex, m.lookup pos.id = some ex → pos.hourIndex < ex.hourIndex →
      insertPos m pos = m.map (fun kv => if kv.1 = pos.id then (pos.id, pos) else kv)) ∧
    insertPos (insertPos [] posX0) posX5 = [("X", posX0)] ∧
    insertPos (insertPos [] posX5) posX0 = [("X", posX0)] ∧
    (∀ d, extractAllBalloonPositions d = extractAllBalloonPositions d) := by
  refine ⟨?_, ?_, ?_, ?_, by decide, by decide, fun d => rfl⟩
  · intro data24h
    have hwf := extractAll_wf data24h
    unfold extractAllBalloonPositions
    rw [List.pairwise_map]
    exact List.Pairwise.imp_of_mem
      (fun {a b} ha hb hne => by rw [hwf.2 a ha, hwf.2 b hb]; exact hne) hwf.1
  · intro m pos hL
    simp [insertPos, hL]
  · intro m pos ex hL hge
    simp [insertPos, hL, hge]
  · intro m pos ex hL hlt
    simp [insertPos, hL, hlt]

/-- C5 witness: the three insertion rules applied at concrete maps. -/
theorem merge_prefers_recent_witness :
    insertPos [] posX0 = [] ++ [(posX0.id, posX0)] ∧
    insertPos [("X", posX0)] posX5 = [("X", posX0)] ∧
    insertPos [("X", posX5)] posX0 =
      [("X", posX5)].map (fun kv => if kv.1 = posX0.id then (posX0.id, posX0) else kv) :=
  ⟨merge_prefers_recent.2.1 [] posX0 (by decide),
   merge_prefers_recent.2.2.1 [("X", posX0)] posX5 posX0 (by decide) (by decide),
   merge_prefers_recent.2.2.2.1 [("X", posX5)] posX0 posX5 (by decide) (by decide)⟩

/-- Modelled from the claim (spec §4.4): the tier rank a classifier obeying
the spec's priority rules would assign, with absent fields defaulting to
`"unknown"`, rule 1 giving tier extreme (rank 0) also on urgency
`"immediate"` alone, rule 5 a severe-equivalent (rank 1), rule 6 tier
unknown (rank 4), and the list order extreme < severe < moderate < minor <
unknown. -/
def claimTierRank (f : AlertFeature) : Nat :=
  let sev := jsToLower (f.severity.getD "unknown")
  let urg := jsToLower (f.urgency.getD "unknown")
  if sev = "extreme" || urg = "immediate" then 0
  else if sev = "severe" then 1
  else if sev = "moderate" then 2
  else if sev = "minor" || sev = "unknown" then 3
  else if urg = "expected" then 1
  else 4

/-- Modelled from the claim: the ranking the spec describes — a stable sort
of the filtered advisories by classified tier. -/
def claimRanked (alerts : List AlertFeature) : List AlertFeature :=
  (validAlerts alerts).mergeSort (fun a b => claimTierRank a ≤ claimTierRank b)

/-- An advisory with urgency Immediate and no severity (classified tier
extreme, but severity sort key "unknown"). -/
def alertImm : AlertFeature := ⟨none, some "Immediate", some (.point 0 0)⟩

def alertMinor : AlertFeature := ⟨some "Minor", none, some (.point 0 0)⟩

def alertExtreme : AlertFeature := ⟨some "Extreme", none, some (.point 0 0)⟩

def alertSevere : AlertFeature := ⟨some "Severe", none, some (.point 0 0)⟩

def alertModerate : AlertFeature := ⟨some "Moderate", none, some (.point 0 0)⟩

/-- C2 counterexample: the code ranks by the severity property alone, not by
the classified tier — an advisory whose urgency is `"immediate"` but whose
severity is absent classifies as tier extreme yet sorts as `"unknown"`,
landing after a `"Minor"` advisory instead of before it. -/
theorem C2_counterexample :
    sortedAlerts [alertImm, alertMinor] = [alertMinor, alertImm] ∧
    claimRanked [alertImm, alertMinor] = [alertImm, alertMinor] ∧
    ([alertMinor, alertImm] : List AlertFeature) ≠ [alertImm, alertMinor] := by
  refine ⟨?_, ?_, by decide⟩
  · simp [sortedAlerts, validAlerts, List.mergeSort, List.splitInTwo, List.splitAt,
      List.splitAt.go, List.merge, alertSortKey, severityOrder, jsToLower,
      alertImm, alertMinor]
  · simp [claimRanked, validAlerts, List.mergeSort, List.splitInTwo, List.splitAt,
      List.splitAt.go, List.merge, claimTierRank, jsToLower, alertImm, alertMinor]

/-- Helper: the severity-rank comparison is transitive. -/
theorem alertLe_trans (a b c : AlertFeature) :
    (alertSortKey a ≤ alertSortKey b : Bool) → (alertSortKey b ≤ alertSortKey c : Bool) →
    (alertSortKey a ≤ alertSortKey c : Bool) := by
  simp only [decide_eq_true_eq]
  omega

/-- Helper: the severity-rank comparison is total. -/
theorem alertLe_total (a b : AlertFeature) :
    ((alertSortKey a ≤ alertSortKey b : Bool) || (alertSortKey b ≤ alertSortKey a : Bool)) = true := by
  simpa using Nat.le_total (alertSortKey a) (alertSortKey b)

/-- C2 (amended): the ranked output is the stable sort of the
geometry-filtered advisories by the severity property alone — lowercased,
with an absent or empty severity ranked as `"unknown"` and unrecognized
severities ranked 99, i.e. last — urgency playing no part; the output is a
permutation of the filtered list, sorted by that rank, equal-rank advisories
keep their relative order, and severities [Minor, Extreme, Severe, Moderate]
rank as [Extreme, Severe, Moderate, Minor]. -/
theorem sortedAlerts_spec :
    (∀ alerts, (sortedAlerts alerts).Perm (validAlerts alerts)) ∧
    (∀ alerts, (sortedAlerts alerts).Pairwise (fun a b => alertSortKey a ≤ alertSortKey b)) ∧
    (∀ alerts a b, List.Sublist [a, b] (validAlerts alerts) →
      alertSortKey a ≤ alertSortKey b → List.Sublist [a, b] (sortedAlerts alerts)) ∧
    sortedAlerts [alertMinor, alertExtreme, alertSevere, alertModerate] =
      [alertExtreme, alertSevere, alertModerate, alertMinor] ∧
    (∀ f : AlertFeature, f.severity = none → alertSortKey f = 4) ∧
    (∀ f : AlertFeature, f.severity = some "" → alertSortKey f = 4) ∧
    (∀ s (f : AlertFeature), f.severity = some s → s ≠ "" →
      jsToLower s ∉ (["extreme", "severe", "moderate", "minor", "unknown"] : List String) →
      alertSortKey f = 99) := by
  refine ⟨?_, ?_, ?_, ?_, ?_, ?_, ?_⟩
  · intro alerts
    exact List.mergeSort_perm _ _
  · intro alerts
    exact (List.sorted_mergeSort alertLe_trans alertLe_total _).imp
      (fun hab => by simpa using hab)
  · intro alerts a b hsub hle
    exact List.pair_sublist_mergeSort alertLe_trans alertLe_total (by simpa using hle) hsub
  · simp [sortedAlerts, validAlerts, List.mergeSort, List.splitInTwo, List.splitAt,
      List.splitAt.go, List.merge, alertSortKey, severityOrder, jsToLower,
      alertImm, alertMinor, alertExtreme, alertSevere, alertModerate]
  · intro f hf
    simp [alertSortKey, hf, severityOrder, jsToLower]
  · intro f hf
    simp [alertSortKey, hf, severityOrder, jsToLower]
  · intro s f hf hne hnotin
    simp only [List.mem_cons, not_or, List.not_mem_nil] at hnotin
    obtain ⟨n1, n2, n3, n4, n5, _⟩ := hnotin
    simp [alertSortKey, hf, hne, severityOrder, n1, n2, n3, n4, n5]

/-- C2 witness: the stability clause applied to a concrete pair, and the
rank clauses at concrete advisories. -/
theorem sortedAlerts_spec_witness :
    List.Sublist [alertSevere, alertMinor] (sortedAlerts [alertSevere, alertMinor]) ∧
    alertSortKey ⟨none, none, none⟩ = 4 ∧
    alertSortKey ⟨some "Bananas", none, none⟩ = 99 :=
  ⟨sortedAlerts_spec.2.2.1 [alertSevere, alertMinor] alertSevere alertMinor
      (by simp [validAlerts, alertSevere, alertMinor]) (by decide),
   sortedAlerts_spec.2.2.2.2.1 ⟨none, none, none⟩ rfl,
   sortedAlerts_spec.2.2.2.2.2.2 "Bananas" ⟨some "Bananas", none, none⟩ rfl
     (by decide) (by decide)⟩
